import Mathlib

set_option autoImplicit false
set_option maxHeartbeats 1000000

/-!
Verification of the tag-parsing / alignment / tracking core of the
`manim-narration` library, shallowly embedded in Lean.

Python machine/library conventions used throughout the embedding:
* `dict[str, X]` values carried by the program are represented as ordered
  association lists `List (String × X)`; lookup takes the first matching key.
* Python exceptions are represented with `Except`.
* Python `float` values are modelled as exact rationals `ℚ`.
* The markup tokenizer (`html.parser.HTMLParser`, standard library, outside the
  repository) is modelled through the event stream it hands to the parser
  subclass: start-tag, end-tag, self-closing-tag and raw-data events in
  document order.
-/

namespace ManimNarration

/-- Attribute map of a tag as handed over by the tokenizer: ordered key/value
pairs, `none` marking a valueless attribute (Python `dict[str, str | None]`). -/
abbrev Attrs := List (String × Option String)

/-- Events emitted by the underlying markup tokenizer in document order.
`TagParser` consumes exactly these four events via its `handle_starttag`,
`handle_endtag`, `handle_startendtag` and `handle_data` callbacks. -/
inductive TagEvent where
  | startTag (name : String) (attrs : Attrs)
  | endTag (name : String)
  | startEndTag (name : String) (attrs : Attrs)
  | data (s : String)
  deriving DecidableEq

/-- Record info on parsed tags, mirroring `TagInfo` in `tags.py`. -/
structure TagInfo where
  kind : String
  name : String
  attrs : Attrs
  offset : Nat
  deriving DecidableEq

/-- Constructor mirroring `TagInfo.__init__`: end tags always get an empty
attribute map. -/
def TagInfo.make (kind name : String) (attrs : Attrs) (offset : Nat) : TagInfo :=
  { kind := kind, name := name
    attrs := if kind = "end" then [] else attrs
    offset := offset }

/-- Python `str(value)` applied to a `str | None` attribute value: `None`
prints as the text `None` inside the f-string of `format_attrs`. -/
def attrValueText : Option String → String
  | none => "None"
  | some v => v

/-- Mirrors `TagInfo.format_attrs`. -/
def TagInfo.formatAttrs (t : TagInfo) : String :=
  if t.attrs = [] then ""
  else " " ++ String.intercalate " "
    (t.attrs.map fun kv => kv.1 ++ "=\"" ++ attrValueText kv.2 ++ "\"")

/-- Mirrors `TagInfo.__str__`: the canonical re-serialization of a tag. -/
def TagInfo.serialize (t : TagInfo) : String :=
  if t.kind = "end" then "</" ++ t.name ++ ">"
  else if t.kind = "startend" then "<" ++ t.name ++ t.formatAttrs ++ "/>"
  else "<" ++ t.name ++ t.formatAttrs ++ ">"

/-- State of a `TagParser` instance (fields of the Python object). The selector
sets are modelled as `Option (List String)`: `none` is Python `None`, `some []`
is the empty set (the default after `__init__` resolves the sentinel), and a
non-empty list is a non-empty set of tag names. -/
structure TagParser where
  tags_to_record : Option (List String)
  tags_to_remove : Option (List String)
  text_parts : List String
  tags : List TagInfo
  pos : Nat
  deriving DecidableEq

/-- State right after `TagParser.__init__` for the given selector sets. -/
def TagParser.init (tags_to_record tags_to_remove : Option (List String)) : TagParser :=
  { tags_to_record := tags_to_record, tags_to_remove := tags_to_remove
    text_parts := [], tags := [], pos := 0 }

/-- Recording guard of `_process_tag`:
`self.tags_to_record is not None and (not self.tags_to_record or tag in self.tags_to_record)`. -/
def selects (sel : Option (List String)) (tag : String) : Bool :=
  match sel with
  | none => false
  | some l => l.isEmpty || l.contains tag

/-- Keep-in-text guard of `_process_tag`: the serialized tag is re-emitted iff
`self.tags_to_remove is None or (self.tags_to_remove and tag not in self.tags_to_remove)`. -/
def keepsInText (sel : Option (List String)) (tag : String) : Bool :=
  match sel with
  | none => true
  | some l => !l.isEmpty && !l.contains tag

/-- Mirrors `TagParser._process_tag`. Note that `self._pos` is untouched here:
only `handle_data` advances it. -/
def TagParser.processTag (p : TagParser) (kind tag : String) (attrs : Attrs) : TagParser :=
  let ti := TagInfo.make kind tag attrs p.pos
  let withTag :=
    if selects p.tags_to_record tag then { p with tags := p.tags ++ [ti] } else p
  if keepsInText p.tags_to_remove tag then
    { withTag with text_parts := withTag.text_parts ++ [ti.serialize] }
  else withTag

/-- Mirrors `TagParser.handle_data`. -/
def TagParser.handleData (p : TagParser) (s : String) : TagParser :=
  { p with text_parts := p.text_parts ++ [s], pos := p.pos + s.length }

/-- Dispatch of one tokenizer event to the corresponding handler
(`handle_starttag` / `handle_endtag` / `handle_startendtag` / `handle_data`);
`handle_endtag` passes an empty attribute dictionary. -/
def TagParser.feedEvent (p : TagParser) : TagEvent → TagParser
  | .startTag n a => p.processTag "start" n a
  | .endTag n => p.processTag "end" n []
  | .startEndTag n a => p.processTag "startend" n a
  | .data s => p.handleData s

/-- Mirrors `TagParser.feed`: consume the tokenizer events in document order. -/
def TagParser.feed (p : TagParser) : List TagEvent → TagParser
  | [] => p
  | e :: es => (p.feedEvent e).feed es

/-- Mirrors the `TagParser.text` property: `"".join(self.text_parts)`. -/
def TagParser.text (p : TagParser) : String :=
  String.join p.text_parts

/-- Total length of the raw-data fragments in an event stream. -/
def dataLen : List TagEvent → Nat
  | [] => 0
  | TagEvent.data s :: es => s.length + dataLen es
  | _ :: es => dataLen es

/-- Raw-data fragments of an event stream, in order. -/
def dataParts : List TagEvent → List String
  | [] => []
  | TagEvent.data s :: es => s :: dataParts es
  | _ :: es => dataParts es

/-- Offsets the parser records for a given record-selector, starting from a
given emitted-data count: the running count advances only on data events, and
is captured at every tag event whose name the selector records. -/
def recordedOffsetsFrom (sel : Option (List String)) : Nat → List TagEvent → List Nat
  | _, [] => []
  | pos, TagEvent.data s :: es => recordedOffsetsFrom sel (pos + s.length) es
  | pos, TagEvent.startTag n _ :: es =>
      (if selects sel n then [pos] else []) ++ recordedOffsetsFrom sel pos es
  | pos, TagEvent.endTag n :: es =>
      (if selects sel n then [pos] else []) ++ recordedOffsetsFrom sel pos es
  | pos, TagEvent.startEndTag n _ :: es =>
      (if selects sel n then [pos] else []) ++ recordedOffsetsFrom sel pos es

theorem TagInfo.make_offset (kind name : String) (attrs : Attrs) (offset : Nat) :
    (TagInfo.make kind name attrs offset).offset = offset := by
  simp [TagInfo.make]

theorem processTag_fields (p : TagParser) (kind tag : String) (attrs : Attrs) :
    (p.processTag kind tag attrs).tags =
        p.tags ++ (if selects p.tags_to_record tag then [TagInfo.make kind tag attrs p.pos] else [])
    ∧ (p.processTag kind tag attrs).pos = p.pos
    ∧ (p.processTag kind tag attrs).tags_to_record = p.tags_to_record
    ∧ (p.processTag kind tag attrs).tags_to_remove = p.tags_to_remove := by
  unfold TagParser.processTag
  by_cases h1 : selects p.tags_to_record tag = true <;>
    by_cases h2 : keepsInText p.tags_to_remove tag = true <;>
      simp [h1, h2]

theorem feed_offsets (p : TagParser) (es : List TagEvent) :
    ((p.feed es).tags).map TagInfo.offset =
      p.tags.map TagInfo.offset ++ recordedOffsetsFrom p.tags_to_record p.pos es := by
  induction es generalizing p with
  | nil => simp [TagParser.feed, recordedOffsetsFrom]
  | cons e es ih =>
    cases e with
    | data s =>
      rw [TagParser.feed, TagParser.feedEvent, ih]
      simp [TagParser.handleData, recordedOffsetsFrom]
    | startTag n a =>
      rw [TagParser.feed, TagParser.feedEvent, ih]
      obtain ⟨ht, hp, hr, _⟩ := processTag_fields p "start" n a
      rw [ht, hp, hr]
      simp [recordedOffsetsFrom]
      split <;> simp [TagInfo.make]
    | endTag n =>
      rw [TagParser.feed, TagParser.feedEvent, ih]
      obtain ⟨ht, hp, hr, _⟩ := processTag_fields p "end" n []
      rw [ht, hp, hr]
      simp [recordedOffsetsFrom]
      split <;> simp [TagInfo.make]
    | startEndTag n a =>
      rw [TagParser.feed, TagParser.feedEvent, ih]
      obtain ⟨ht, hp, hr, _⟩ := processTag_fields p "startend" n a
      rw [ht, hp, hr]
      simp [recordedOffsetsFrom]
      split <;> simp [TagInfo.make]

theorem feed_pos (p : TagParser) (es : List TagEvent) :
    (p.feed es).pos = p.pos + dataLen es := by
  induction es generalizing p with
  | nil => simp [TagParser.feed, dataLen]
  | cons e es ih =>
    cases e with
    | data s =>
      rw [TagParser.feed, TagParser.feedEvent, ih]
      simp [TagParser.handleData, dataLen]
      omega
    | startTag n a =>
      rw [TagParser.feed, TagParser.feedEvent, ih, (processTag_fields p "start" n a).2.1]
      simp [dataLen]
    | endTag n =>
      rw [TagParser.feed, TagParser.feedEvent, ih, (processTag_fields p "end" n []).2.1]
      simp [dataLen]
    | startEndTag n a =>
      rw [TagParser.feed, TagParser.feedEvent, ih,
        (processTag_fields p "startend" n a).2.1]
      simp [dataLen]

theorem keepsInText_removeAll (tag : String) : keepsInText (some []) tag = false := by
  simp [keepsInText]

theorem processTag_text_parts_removeAll (p : TagParser) (kind tag : String) (attrs : Attrs)
    (h : p.tags_to_remove = some []) :
    (p.processTag kind tag attrs).text_parts = p.text_parts := by
  unfold TagParser.processTag
  rw [h, keepsInText_removeAll]
  by_cases h1 : selects p.tags_to_record tag = true <;> simp [h1]

theorem feed_text_parts_removeAll (p : TagParser) (es : List TagEvent)
    (h : p.tags_to_remove = some []) :
    (p.feed es).text_parts = p.text_parts ++ dataParts es := by
  induction es generalizing p with
  | nil => simp [TagParser.feed, dataParts]
  | cons e es ih =>
    cases e with
    | data s =>
      rw [TagParser.feed, TagParser.feedEvent, ih]
      · simp [TagParser.handleData, dataParts]
      · simp [TagParser.handleData, h]
    | startTag n a =>
      rw [TagParser.feed, TagParser.feedEvent, ih, processTag_text_parts_removeAll p _ _ _ h]
      · simp [dataParts]
      · rw [(processTag_fields p "start" n a).2.2.2, h]
    | endTag n =>
      rw [TagParser.feed, TagParser.feedEvent, ih, processTag_text_parts_removeAll p _ _ _ h]
      · simp [dataParts]
      · rw [(processTag_fields p "end" n []).2.2.2, h]
    | startEndTag n a =>
      rw [TagParser.feed, TagParser.feedEvent, ih, processTag_text_parts_removeAll p _ _ _ h]
      · simp [dataParts]
      · rw [(processTag_fields p "startend" n a).2.2.2, h]

theorem join_length_aux (l : List String) (init : String) :
    (l.foldl (· ++ ·) init).length = init.length + (l.map String.length).sum := by
  induction l generalizing init with
  | nil => simp
  | cons s t ih => simp [List.foldl, ih, String.length_append]; omega

theorem join_length (l : List String) :
    (String.join l).length = (l.map String.length).sum := by
  simpa [String.join] using join_length_aux l ""

theorem dataParts_length_sum (es : List TagEvent) :
    ((dataParts es).map String.length).sum = dataLen es := by
  induction es with
  | nil => simp [dataParts, dataLen]
  | cons e es ih => cases e <;> simp [dataParts, dataLen, ih]

/-- Event stream for the raw text
`<foo/>x<bookmark mark=\x27a\x27/>` : a kept tag, one character of data, then a
recorded-and-removed tag. -/
def c1Events : List TagEvent :=
  [TagEvent.startEndTag "foo" [],
   TagEvent.data "x",
   TagEvent.startEndTag "bookmark" [("mark", some "a")]]

/-- Parser configured to record and remove only `bookmark` tags. -/
def bookmarkOnlyParser : TagParser :=
  TagParser.init (some ["bookmark"]) (some ["bookmark"])

/-- Claim C1, counterexample: with `tags_to_record = tags_to_remove = {"bookmark"}`,
feeding `<foo/>x<bookmark mark=\x27a\x27/>` re-emits the `foo` tag (6 literal
characters) and one data character, so 7 characters of output text have been
emitted when the `bookmark` tag is reached; yet the recorded offset is 1, not 7:
the re-emitted tag did not advance the counter the offset is taken from. -/
theorem c1_counterexample :
    (bookmarkOnlyParser.feed c1Events).tags.map TagInfo.offset = [1]
    ∧ (bookmarkOnlyParser.feed [TagEvent.startEndTag "foo" [], TagEvent.data "x"]).text
        = "<foo/>x"
    ∧ ("<foo/>x" : String).length = 7
    ∧ (1 : Nat) ≠ 7 := by
  refine ⟨by decide, by decide, by decide, by decide⟩

/-- Claim C1 (corrected): the running counter `_pos` from which every recorded
tag offset is taken advances only on raw-data events — a removed tag does not
advance it, and a tag that is re-emitted as literal text does not advance it
either.  Formally: for every selector configuration and event stream, (1) the
recorded offsets are exactly the cumulative data lengths at each recorded tag
(independent of the removal selector), (2) the counter ends at the total data
length, and (3) under the remove-everything configuration the emitted output is
exactly the data text, so there (and only in the absence of earlier re-emitted
tags) the offsets coincide with the length of the output emitted so far. -/
theorem tagParser_offsets_count_data_only
    (rec rem : Option (List String)) (es : List TagEvent) :
    ((TagParser.init rec rem).feed es).tags.map TagInfo.offset = recordedOffsetsFrom rec 0 es
    ∧ ((TagParser.init rec rem).feed es).pos = dataLen es
    ∧ ((TagParser.init rec (some [])).feed es).text.length = dataLen es := by
  refine ⟨?_, ?_, ?_⟩
  · rw [feed_offsets]
    simp [TagParser.init]
  · rw [feed_pos]
    simp [TagParser.init]
  · rw [TagParser.text, feed_text_parts_removeAll _ _ (by simp [TagParser.init]),
      join_length]
    simp [TagParser.init, dataParts_length_sum]

/-- Event stream the tokenizer produces for the raw text
`<bookmark mark=\x27A\x27/>Test <bookmark mark=\x27B\x27/>string. <bookmark mark=\x27C\x27/>`. -/
def c2Events : List TagEvent :=
  [TagEvent.startEndTag "bookmark" [("mark", some "A")],
   TagEvent.data "Test ",
   TagEvent.startEndTag "bookmark" [("mark", some "B")],
   TagEvent.data "string. ",
   TagEvent.startEndTag "bookmark" [("mark", some "C")]]

/-- Result of parsing the C2 scenario text with bookmark recording/removal. -/
def c2Parser : TagParser := bookmarkOnlyParser.feed c2Events

/-- Claim C2, counterexample: the scenario text actually yields the clean text
`Test string. ` — with a trailing space, 13 characters — and the offset of mark
`C` is 13, not 12; the claimed clean text `Test string.` and offset 12 are both
wrong. -/
theorem c2_counterexample :
    c2Parser.text = "Test string. "
    ∧ c2Parser.tags.map TagInfo.offset = [0, 5, 13]
    ∧ ("Test string. " : String) ≠ "Test string."
    ∧ (13 : Nat) ≠ 12 := by
  refine ⟨by decide, by decide, by decide, by decide⟩

/-- Claim C2 (corrected): parsing the scenario text with bookmark
recording/removal yields the clean text `Test string. ` (trailing space
included, since a space precedes the final tag in the raw text) and exactly
three recorded tags, at offsets 0 for mark `A`, 5 for mark `B` and 13 for mark
`C`. -/
theorem c2_scenario :
    c2Parser.text = "Test string. "
    ∧ c2Parser.tags =
        [TagInfo.make "startend" "bookmark" [("mark", some "A")] 0,
         TagInfo.make "startend" "bookmark" [("mark", some "B")] 5,
         TagInfo.make "startend" "bookmark" [("mark", some "C")] 13] := by
  refine ⟨by decide, by decide⟩

/-- Lookup in an ordered association list, first match wins (Python `dict`
access; the dictionaries built by this program never carry duplicate keys). -/
def alookup {β : Type} (k : String) : List (String × β) → Option β
  | [] => none
  | kv :: rest => if kv.1 = k then some kv.2 else alookup k rest

/-- Mark extraction `tag.attrs.get("mark")` from `_align_bookmarks`: Python
`dict.get` returns `None` both for an absent key and for a valueless
attribute, so the two cases collapse. -/
def getMark (t : TagInfo) : Option String :=
  match alookup "mark" t.attrs with
  | none => none
  | some v => v

/-- Mirrors `all_strings` from `typing.py`: `None` entries are not strings. -/
def all_strings (marks : List (Option String)) : Bool :=
  marks.all Option.isSome

/-- Validation failures of `AlignmentService._align_bookmarks`, one per
`raise AlignmentError(...)` site. -/
inductive AlignmentErrorKind where
  | notSelfClosing
  | duplicateName
  | missingMarkAttribute
  deriving DecidableEq

/-- Message carried by each `AlignmentError` raised in `_align_bookmarks`. -/
def alignmentErrorMessage : AlignmentErrorKind → String
  | .notSelfClosing => "Bookmarks should be self-closing tags (e.g. `<bookmark mark=\x27A\x27 />)`"
  | .duplicateName => "Each bookmark should have a unique name."
  | .missingMarkAttribute => "Bookmarks must define a mark attribute."

/-- Tags recorded by the parser `_align_bookmarks` runs over the raw text:
`TagParser(tags_to_record={bookmark_mapping})`, with `tags_to_remove` left at
its remove-everything default. -/
def bookmarkTags (bookmarkName : String) (events : List TagEvent) : List TagInfo :=
  ((TagParser.init (some [bookmarkName]) (some [])).feed events).tags

/-- Clean spoken text seen by the aligner inside `_align_bookmarks`. -/
def cleanText (bookmarkName : String) (events : List TagEvent) : String :=
  ((TagParser.init (some [bookmarkName]) (some [])).feed events).text

/-- Mirrors `AlignmentService._align_bookmarks`, with the concrete alignment
back end (`_align_chars_and_cache`, an external service plus file cache)
abstracted as the function argument `aligner`.  The three validations run in
source order: the self-closing check, then the uniqueness check
(`len(marks) != len(set(marks))`), then the `all_strings` check. -/
def align_bookmarks (aligner : String → List Nat → List ℚ) (bookmarkName : String)
    (events : List TagEvent) : Except AlignmentErrorKind (List (Option String × ℚ)) :=
  let tags := bookmarkTags bookmarkName events
  if tags.any (fun t => t.kind != "startend") then .error .notSelfClosing
  else
    let marks := tags.map getMark
    if marks.length ≠ marks.dedup.length then .error .duplicateName
    else if !all_strings marks then .error .missingMarkAttribute
    else .ok (marks.zip (aligner (cleanText bookmarkName events) (tags.map TagInfo.offset)))

theorem not_nodup_of_pair {marks : List (Option String)}
    {i j : Fin marks.length} (hij : i ≠ j)
    (heq : marks.get i = marks.get j) : ¬ marks.Nodup := by
  intro hnd
  exact hij (List.nodup_iff_injective_get.mp hnd heq)

theorem dedup_length_ne {marks : List (Option String)} (h : ¬ marks.Nodup) :
    marks.length ≠ marks.dedup.length := by
  intro hlen
  exact h (by
    have hsub : marks.dedup.Sublist marks := List.dedup_sublist marks
    have := hsub.eq_of_length hlen.symm
    simpa [this] using marks.nodup_dedup)

theorem any_kind_false {tags : List TagInfo}
    (h : ∀ t ∈ tags, t.kind = "startend") :
    tags.any (fun t => t.kind != "startend") = false := by
  rw [List.any_eq_false]
  intro t ht
  simp [h t ht]

theorem all_strings_false_of_none {marks : List (Option String)}
    (h : none ∈ marks) : all_strings marks = false := by
  rw [all_strings, List.all_eq_false]
  exact ⟨none, h, by simp⟩

/-- Claim C5 (confirmed): for any raw text whose recorded bookmark tags are all
self-closing, if two bookmark tags carry the same `mark` attribute value then
`_align_bookmarks` fails with the `AlignmentError` whose message is
`Each bookmark should have a unique name.` (matching "unique name") — and it
does so for every alignment back end, i.e. before any alignment is performed. -/
theorem align_bookmarks_duplicate_raises (aligner : String → List Nat → List ℚ)
    (bookmarkName : String) (events : List TagEvent)
    (hkind : ∀ t ∈ bookmarkTags bookmarkName events, t.kind = "startend")
    (hdup : ∃ (i j : Fin ((bookmarkTags bookmarkName events).map getMark).length)
        (v : String), i ≠ j
        ∧ ((bookmarkTags bookmarkName events).map getMark).get i = some v
        ∧ ((bookmarkTags bookmarkName events).map getMark).get j = some v) :
    align_bookmarks aligner bookmarkName events = .error .duplicateName
    ∧ alignmentErrorMessage .duplicateName = "Each bookmark should have a unique name." := by
  refine ⟨?_, rfl⟩
  obtain ⟨i, j, v, hij, hi, hj⟩ := hdup
  unfold align_bookmarks
  rw [if_neg, if_pos]
  · exact dedup_length_ne (not_nodup_of_pair hij (hi.trans hj.symm))
  · intro hc
    rw [any_kind_false hkind] at hc
    exact absurd hc (by decide)

/-- Claim C5, witness input: two self-closing bookmarks both marked `A`. -/
theorem align_bookmarks_duplicate_raises_witness :
    align_bookmarks (fun _ _ => []) "bookmark"
        [TagEvent.startEndTag "bookmark" [("mark", some "A")],
         TagEvent.data "x",
         TagEvent.startEndTag "bookmark" [("mark", some "A")]]
      = .error .duplicateName :=
  (align_bookmarks_duplicate_raises (fun _ _ => []) "bookmark"
    [TagEvent.startEndTag "bookmark" [("mark", some "A")],
     TagEvent.data "x",
     TagEvent.startEndTag "bookmark" [("mark", some "A")]]
    (by decide) ⟨⟨0, by decide⟩, ⟨1, by decide⟩, "A", by decide, by decide, by decide⟩).1

/-- Event stream for `<bookmark/>x<bookmark/>` : two self-closing bookmarks,
both lacking a `mark` attribute. -/
def c4Events : List TagEvent :=
  [TagEvent.startEndTag "bookmark" [],
   TagEvent.data "x",
   TagEvent.startEndTag "bookmark" []]

/-- Claim C4, counterexample: with two self-closing bookmark tags that both
lack a `mark` attribute, `_align_bookmarks` raises the duplicate-name
`AlignmentError` ("Each bookmark should have a unique name."), not the
missing-mark one, because the uniqueness check `len(marks) != len(set(marks))`
runs before `all_strings(marks)` and the two `None` marks count as duplicates. -/
theorem c4_counterexample :
    align_bookmarks (fun _ _ => []) "bookmark" c4Events = .error .duplicateName
    ∧ AlignmentErrorKind.duplicateName ≠ AlignmentErrorKind.missingMarkAttribute
    ∧ alignmentErrorMessage .duplicateName = "Each bookmark should have a unique name." := by
  refine ⟨by rfl, by decide, rfl⟩

/-- Claim C4 (corrected): for a raw text whose recorded bookmark tags are all
self-closing, if at least one bookmark tag lacks a string-valued `mark`
attribute *and* the extracted mark values (with `None` for the missing ones)
are pairwise distinct, then `_align_bookmarks` fails with the `AlignmentError`
whose message is `Bookmarks must define a mark attribute.` (matching "must
define a mark attribute"); when the extracted values contain duplicates — e.g.
two tags both missing the attribute — the unique-name error fires first. -/
theorem align_bookmarks_missing_mark_raises (aligner : String → List Nat → List ℚ)
    (bookmarkName : String) (events : List TagEvent)
    (hkind : ∀ t ∈ bookmarkTags bookmarkName events, t.kind = "startend")
    (hnd : ((bookmarkTags bookmarkName events).map getMark).Nodup)
    (hnone : none ∈ (bookmarkTags bookmarkName events).map getMark) :
    align_bookmarks aligner bookmarkName events = .error .missingMarkAttribute
    ∧ alignmentErrorMessage .missingMarkAttribute = "Bookmarks must define a mark attribute." := by
  refine ⟨?_, rfl⟩
  unfold align_bookmarks
  rw [if_neg, if_neg, if_pos]
  · simp [all_strings_false_of_none hnone]
  · simp [List.dedup_eq_self.mpr hnd]
  · intro hc
    rw [any_kind_false hkind] at hc
    exact absurd hc (by decide)

/-- Claim C4, witness input: one markless self-closing bookmark next to one
properly marked bookmark (mark values `None` and `A` are distinct). -/
theorem align_bookmarks_missing_mark_raises_witness :
    align_bookmarks (fun _ _ => []) "bookmark"
        [TagEvent.startEndTag "bookmark" [],
         TagEvent.data "y",
         TagEvent.startEndTag "bookmark" [("mark", some "A")]]
      = .error .missingMarkAttribute :=
  (align_bookmarks_missing_mark_raises (fun _ _ => []) "bookmark"
    [TagEvent.startEndTag "bookmark" [],
     TagEvent.data "y",
     TagEvent.startEndTag "bookmark" [("mark", some "A")]]
    (by decide) (by decide) (by decide)).1

/-- Numeric exceptions reachable in `InterpolationAligner.align_chars`. -/
inductive PyNumericError where
  | zeroDivision
  deriving DecidableEq

/-- Python built-in `round` to an integer: round half to even (floats are
modelled as exact rationals). -/
def roundHalfEven (x : ℚ) : ℤ :=
  if x - ⌊x⌋ < 1 / 2 then ⌊x⌋
  else if 1 / 2 < x - ⌊x⌋ then ⌊x⌋ + 1
  else if ⌊x⌋ % 2 = 0 then ⌊x⌋ else ⌊x⌋ + 1

/-- Python `round(x, 3)`: round to three decimal places. -/
def round3 (x : ℚ) : ℚ := (roundHalfEven (x * 1000) : ℚ) / 1000

/-- Left-to-right evaluation of the generator inside `tuple(...)` in
`align_chars`: the first element whose computation raises aborts the whole
tuple construction. -/
def mapOffsets (f : ℤ → Except PyNumericError ℚ) : List ℤ → Except PyNumericError (List ℚ)
  | [] => .ok []
  | o :: os =>
    match f o with
    | .error e => .error e
    | .ok v =>
      match mapOffsets f os with
      | .error e => .error e
      | .ok vs => .ok (v :: vs)

/-- Mirrors `InterpolationAligner.align_chars`.  The audio-duration probe
(`audio.get_duration`, an external call memoized per file path) is abstracted
as the `duration` argument; each offset is mapped to
`round(duration * offset / len(text), 3)`, and evaluating that expression with
an empty `text` raises `ZeroDivisionError`. -/
def InterpolationAligner.align_chars (duration : ℚ) (text : String)
    (char_offsets : List ℤ) : Except PyNumericError (List ℚ) :=
  mapOffsets
    (fun o =>
      if text.length = 0 then .error .zeroDivision
      else .ok (round3 (duration * (o : ℚ) / (text.length : ℚ))))
    char_offsets

/-- Timestamp `align_chars` computes for one offset of a non-empty text. -/
def interpTimestamp (duration : ℚ) (text : String) (o : ℤ) : ℚ :=
  round3 (duration * (o : ℚ) / (text.length : ℚ))

theorem roundHalfEven_ge_floor (x : ℚ) : ⌊x⌋ ≤ roundHalfEven x := by
  unfold roundHalfEven
  split_ifs <;> omega

theorem roundHalfEven_le_floor_add_one (x : ℚ) : roundHalfEven x ≤ ⌊x⌋ + 1 := by
  unfold roundHalfEven
  split_ifs <;> omega

theorem roundHalfEven_mono {x y : ℚ} (h : x ≤ y) :
    roundHalfEven x ≤ roundHalfEven y := by
  rcases lt_or_eq_of_le (Int.floor_mono h) with hf | hf
  · calc roundHalfEven x ≤ ⌊x⌋ + 1 := roundHalfEven_le_floor_add_one x
      _ ≤ ⌊y⌋ := by omega
      _ ≤ roundHalfEven y := roundHalfEven_ge_floor y
  · unfold roundHalfEven
    rw [← hf]
    split_ifs <;> first
      | omega
      | linarith

theorem roundHalfEven_intCast (n : ℤ) : roundHalfEven (n : ℚ) = n := by
  unfold roundHalfEven
  rw [Int.floor_intCast, sub_self]
  norm_num

theorem roundHalfEven_zero : roundHalfEven 0 = 0 := by
  simpa using roundHalfEven_intCast 0

theorem round3_zero : round3 0 = 0 := by
  unfold round3
  rw [zero_mul, roundHalfEven_zero]
  norm_num

theorem round3_mono {x y : ℚ} (h : x ≤ y) : round3 x ≤ round3 y := by
  unfold round3
  have := roundHalfEven_mono (by linarith : x * 1000 ≤ y * 1000)
  have hc : ((roundHalfEven (x * 1000) : ℤ) : ℚ) ≤ ((roundHalfEven (y * 1000) : ℤ) : ℚ) := by
    exact_mod_cast this
  linarith

theorem round3_of_thousandth (n : ℤ) : round3 ((n : ℚ) / 1000) = (n : ℚ) / 1000 := by
  unfold round3
  rw [div_mul_cancel₀ _ (by norm_num : (1000 : ℚ) ≠ 0), roundHalfEven_intCast]

/-- Claim C10 (confirmed): `align_chars` divides by `len(text)` without an
emptiness guard, so for the empty text and any non-empty offset tuple the call
raises `ZeroDivisionError` instead of returning timestamps; the error branch
is reached exactly when `text` is empty and an offset is evaluated. -/
theorem align_chars_empty_text_raises (duration : ℚ) (char_offsets : List ℤ)
    (h : char_offsets ≠ []) :
    InterpolationAligner.align_chars duration "" char_offsets
      = .error .zeroDivision := by
  cases char_offsets with
  | nil => exact absurd rfl h
  | cons o os => rfl

/-- Claim C10, witness input: duration 1, one offset, empty text. -/
theorem align_chars_empty_text_raises_witness :
    InterpolationAligner.align_chars 1 "" [0] = .error .zeroDivision
    ∧ ([0] : List ℤ) ≠ [] :=
  ⟨align_chars_empty_text_raises 1 [0] (by decide), by decide⟩

/-- Claim C6, counterexample: `align_chars` rounds each timestamp to three
decimal places, so the offset `len(text)` does *not* map to exactly the audio
duration: with the one-character text `a` and duration 1/10000 (0.0001
seconds), the offset `len("a") = 1` yields `round(0.0001, 3) = 0`, not 0.0001. -/
theorem interpolation_endpoint_counterexample :
    InterpolationAligner.align_chars (1 / 10000) "a" [(("a" : String).length : ℤ)]
      = .ok [0]
    ∧ (0 : ℚ) ≠ 1 / 10000 := by
  constructor
  · have h1 : ("a" : String).length = 1 := rfl
    unfold InterpolationAligner.align_chars mapOffsets
    rw [if_neg (by rw [h1]; exact one_ne_zero)]
    have harg : (1 / 10000 : ℚ) * ((("a" : String).length : ℤ) : ℚ)
        / (("a" : String).length : ℚ) = 1 / 10000 := by
      rw [h1]
      norm_num
    rw [harg]
    have hr : round3 (1 / 10000) = 0 := by
      unfold round3 roundHalfEven
      norm_num
    rw [hr]
    rfl
  · norm_num

/-- Claim C6 (corrected): for every non-empty text, `align_chars` returns
`round(duration * offset / len(text), 3)` for each requested offset; offset 0
maps to 0.0; offset `len(text)` maps to the duration rounded to three decimal
places — which equals the duration exactly whenever `1000 * duration` is an
integer, but not in general — and for a (physically meaningful) nonnegative
duration the timestamps are monotonically non-decreasing in the offset. -/
theorem interpolation_align_chars_linear (duration : ℚ) (text : String)
    (offsets : List ℤ) (h : text ≠ "") :
    InterpolationAligner.align_chars duration text offsets
        = .ok (offsets.map (interpTimestamp duration text))
    ∧ interpTimestamp duration text 0 = 0
    ∧ interpTimestamp duration text (text.length : ℤ) = round3 duration
    ∧ (∀ n : ℤ, duration = (n : ℚ) / 1000 →
        interpTimestamp duration text (text.length : ℤ) = duration)
    ∧ (0 ≤ duration → ∀ o1 o2 : ℤ, o1 ≤ o2 →
        interpTimestamp duration text o1 ≤ interpTimestamp duration text o2) := by
  have hlen : text.length ≠ 0 := by
    intro h0
    apply h
    cases text with
    | mk l =>
      have hl : l = [] := List.length_eq_zero.mp h0
      rw [hl]
  have hlenq : ((text.length : ℕ) : ℚ) ≠ 0 := Nat.cast_ne_zero.mpr hlen
  have hend : interpTimestamp duration text (text.length : ℤ) = round3 duration := by
    unfold interpTimestamp
    rw [Int.cast_natCast, mul_div_assoc, div_self hlenq, mul_one]
  refine ⟨?_, ?_, hend, ?_, ?_⟩
  · induction offsets with
    | nil => rfl
    | cons o os ih =>
      unfold InterpolationAligner.align_chars at ih ⊢
      unfold mapOffsets
      rw [if_neg hlen, ih]
      rfl
  · unfold interpTimestamp
    rw [show duration * ((0 : ℤ) : ℚ) / (text.length : ℚ) = 0 by norm_num]
    exact round3_zero
  · intro n hn
    rw [hend, hn, round3_of_thousandth]
  · intro hd o1 o2 ho
    unfold interpTimestamp
    apply round3_mono
    have hpos : (0 : ℚ) < (text.length : ℚ) := by
      have : 0 < text.length := Nat.pos_of_ne_zero hlen
      exact_mod_cast this
    have hmul : duration * (o1 : ℚ) ≤ duration * (o2 : ℚ) :=
      mul_le_mul_of_nonneg_left (by exact_mod_cast ho) hd
    exact (div_le_div_iff_of_pos_right hpos).mpr hmul

/-- Claim C6, witness input: duration 2 over the two-character text `ab` with
offsets 0, 1 and 2 (`1000 * 2` is the integer 2000, so the endpoint equals the
duration here). -/
theorem interpolation_align_chars_linear_witness :
    InterpolationAligner.align_chars 2 "ab" [0, 1, 2]
        = .ok ([0, 1, 2].map (interpTimestamp 2 "ab"))
    ∧ interpTimestamp 2 "ab" 0 = 0
    ∧ interpTimestamp 2 "ab" (("ab" : String).length : ℤ) = 2
    ∧ interpTimestamp 2 "ab" 1 ≤ interpTimestamp 2 "ab" 2 := by
  have h := interpolation_align_chars_linear 2 "ab" [0, 1, 2] (by decide)
  exact ⟨h.1, h.2.1, h.2.2.2.1 2000 (by norm_num),
    h.2.2.2.2 (by norm_num) 1 2 (by norm_num)⟩

/-- Lexicographic comparison of key strings by Unicode code point, the order
`json.dumps(..., sort_keys=True)` sorts mapping keys in. -/
def charsLe : List Char → List Char → Bool
  | [], _ => true
  | _ :: _, [] => false
  | a :: as, b :: bs =>
    if a.val < b.val then true
    else if b.val < a.val then false
    else charsLe as bs

/-- Key order used by the canonical serialization. -/
def keyLe (a b : String) : Bool := charsLe a.data b.data

/-- Insertion step of the key sort. -/
def insertSortedByKey (kv : String × Int) :
    List (String × Int) → List (String × Int)
  | [] => [kv]
  | kv2 :: rest =>
    if keyLe kv.1 kv2.1 then kv :: kv2 :: rest
    else kv2 :: insertSortedByKey kv rest

/-- Sort the mapping entries by key (the effect of `sort_keys=True`). -/
def sortByKey : List (String × Int) → List (String × Int)
  | [] => []
  | kv :: rest => insertSortedByKey kv (sortByKey rest)

/-- JSON encoding of a single key/value entry with the compact separators
`(",", ":")`. -/
def jsonEncodeEntry (kv : String × Int) : String :=
  "\"" ++ kv.1 ++ "\":" ++ toString kv.2

/-- Canonical serialization `json.dumps(data, sort_keys=True,
separators=(",", ":"), ensure_ascii=False)` (the encoder itself is the Python
standard library, external to the repository) modelled for the mappings this
program hashes: string keys needing no escapes, JSON-scalar values modelled as
integers. -/
def jsonDumpsSorted (data : List (String × Int)) : String :=
  "\x7b" ++ String.intercalate "," ((sortByKey data).map jsonEncodeEntry) ++ "\x7d"

/-- Python slicing `digest[:n]` for nonnegative `n`. -/
def strTake (s : String) (n : Nat) : String := String.mk (s.data.take n)

/-- Mirrors `get_hash_from_data` from `utils.py` on mappings (the only
supported input type).  The `hashlib` digest pipeline
`hashlib.new(hash_algo).update(raw).hexdigest()` is external; it is abstracted
as the function `hexdigest` from serialized bytes to hex digest.  A positive
`hash_len` truncates the digest, zero or negative returns it whole. -/
def get_hash_from_data (hexdigest : String → String) (data : List (String × Int))
    (hash_len : Int) : String :=
  let digest := hexdigest (jsonDumpsSorted data)
  if 0 < hash_len then strTake digest hash_len.toNat else digest

/-- Claim C3 (confirmed): `get_hash_from_data` is invariant under mapping key
order — the two insertion orders of `a:1, b:2` serialize identically, hence
hash identically for every digest algorithm and truncation length; with
`hash_len = 5` the result has exactly 5 characters (for any digest of at least
5 characters, which every `hashlib` algorithm produces); and with
`hash_len ≤ 0` the full untruncated digest is returned. -/
theorem get_hash_from_data_properties :
    (∀ (hexdigest : String → String) (hash_len : Int),
      get_hash_from_data hexdigest [("a", 1), ("b", 2)] hash_len
        = get_hash_from_data hexdigest [("b", 2), ("a", 1)] hash_len)
    ∧ (∀ (hexdigest : String → String) (data : List (String × Int)),
      5 ≤ (hexdigest (jsonDumpsSorted data)).length →
      (get_hash_from_data hexdigest data 5).length = 5)
    ∧ (∀ (hexdigest : String → String) (data : List (String × Int)) (hash_len : Int),
      hash_len ≤ 0 →
      get_hash_from_data hexdigest data hash_len = hexdigest (jsonDumpsSorted data)) := by
  refine ⟨?_, ?_, ?_⟩
  · intro hexdigest hash_len
    have hs : jsonDumpsSorted [("a", 1), ("b", 2)]
        = jsonDumpsSorted [("b", 2), ("a", 1)] := by decide
    unfold get_hash_from_data
    rw [hs]
  · intro hexdigest data hlen
    unfold get_hash_from_data
    rw [if_pos (by norm_num : (0 : Int) < 5)]
    show (strTake _ ((5 : Int).toNat)).length = 5
    unfold strTake
    show ((hexdigest (jsonDumpsSorted data)).data.take ((5 : Int).toNat)).length = 5
    rw [List.length_take]
    have : (5 : Int).toNat = 5 := rfl
    rw [this]
    have hd : (hexdigest (jsonDumpsSorted data)).data.length
        = (hexdigest (jsonDumpsSorted data)).length := rfl
    omega
  · intro hexdigest data hash_len hneg
    unfold get_hash_from_data
    rw [if_neg (by omega)]

/-- Digest stand-in with the (at least five character) length every `hashlib`
algorithm guarantees. -/
def constDigest : String → String := fun _ => "0123456789abcdef"

/-- Claim C3, witness inputs: the constant 16-character digest function, the
two orderings of `a:1, b:2`, truncation lengths 5 and -1. -/
theorem get_hash_from_data_properties_witness :
    get_hash_from_data constDigest [("a", 1), ("b", 2)] 5
        = get_hash_from_data constDigest [("b", 2), ("a", 1)] 5
    ∧ (get_hash_from_data constDigest [("a", 1)] 5).length = 5
    ∧ get_hash_from_data constDigest [("a", 1)] (-1)
        = constDigest (jsonDumpsSorted [("a", 1)]) :=
  ⟨get_hash_from_data_properties.1 constDigest 5,
   get_hash_from_data_properties.2.1 constDigest [("a", 1)] (by decide),
   get_hash_from_data_properties.2.2 constDigest [("a", 1)] (-1) (by decide)⟩

/-- State of a `NarrationTracker` (fields set in `__init__` plus the two
mutable ones).  The scene reference is replaced by passing the scene clock
reading explicitly where it is consumed; `raw_text` and `audio_file_path` feed
only the external alignment call, which is likewise passed in explicitly. -/
structure NarrationTracker where
  start_time : ℚ
  duration : ℚ
  end_time : ℚ
  current_bookmark : String
  bookmark_timestamps : List (String × ℚ)
  deriving DecidableEq

/-- State right after `NarrationTracker.__init__`: `duration` comes from the
audio-duration probe (`get_duration`, external), `end_time = start_time +
duration`, the current bookmark is the synthetic origin and the timestamp map
is unpopulated. -/
def NarrationTracker.create (start_time duration : ℚ) : NarrationTracker :=
  { start_time := start_time, duration := duration
    end_time := start_time + duration
    current_bookmark := "_origin_"
    bookmark_timestamps := [] }

/-- Mirrors the `NarrationTracker.remaining_duration` property:
`max(self.end_time - self.scene.time, 0.0)`.  A pure function of the tracker
and the scene clock reading — by construction it touches no tracker state. -/
def NarrationTracker.remaining_duration (tr : NarrationTracker) (scene_time : ℚ) : ℚ :=
  max (tr.end_time - scene_time) 0

/-- Exceptions escaping `duration_until_bookmark`: the uncaught `KeyError`
when the current bookmark is not in the map, and the `AlignmentError` raised
for an unknown target. -/
inductive TrackerError where
  | keyError (key : String)
  | bookmarkNotFound (target : String)
  deriving DecidableEq

/-- Message of the `AlignmentError` raised for an unknown target bookmark. -/
def trackerErrorMessage : TrackerError → String
  | .keyError k => k
  | .bookmarkNotFound target => "The bookmark `" ++ target ++ "` does not exist."

/-- Mirrors `{"_origin_": 0.0, **bk_ts}`: the synthetic origin entry at 0.0 is
added unless the aligner result itself binds that key (dict union lets the
later entries win). -/
def populateBookmarks (aligned : List (String × ℚ)) : List (String × ℚ) :=
  if (alookup "_origin_" aligned).isSome then aligned else ("_origin_", 0) :: aligned

/-- Mirrors `NarrationTracker.duration_until_bookmark`.  The external call
`self.scene.alignment_service._align_bookmarks(raw_text, audio_file_path)` is
abstracted as the `aligned` argument; it is consulted only when the memoized
`bookmark_timestamps` is still empty.  The current bookmark is read with a
plain dict subscript (a missing key escapes as `KeyError`); only the target
lookup is converted to an `AlignmentError`. -/
def NarrationTracker.duration_until_bookmark (tr : NarrationTracker)
    (aligned : List (String × ℚ)) (target_mark : String) : Except TrackerError ℚ :=
  let bk_ts :=
    if tr.bookmark_timestamps = [] then populateBookmarks aligned
    else tr.bookmark_timestamps
  match alookup tr.current_bookmark bk_ts with
  | none => .error (.keyError tr.current_bookmark)
  | some current_bk_ts =>
    match alookup target_mark bk_ts with
    | none => .error (.bookmarkNotFound target_mark)
    | some target_bk_ts => .ok (target_bk_ts - current_bk_ts)

/-- Claim C7 (confirmed): `remaining_duration` equals
`max(end_time - scene_clock, 0)` for every tracker state and clock reading,
is never negative, and for the tracker built with `start_time = 0` and
`duration = 5` evaluates to 4 at clock 1 and to 0 at clock 10.  It is a plain
function of the tracker value, so reading it mutates nothing. -/
theorem remaining_duration_spec :
    (∀ (tr : NarrationTracker) (scene_time : ℚ),
      tr.remaining_duration scene_time = max (tr.end_time - scene_time) 0
      ∧ 0 ≤ tr.remaining_duration scene_time)
    ∧ (NarrationTracker.create 0 5).remaining_duration 1 = 4
    ∧ (NarrationTracker.create 0 5).remaining_duration 10 = 0 := by
  refine ⟨fun tr scene_time => ⟨rfl, le_max_right _ _⟩, ?_, ?_⟩
  · show max ((0 + 5 : ℚ) - 1) 0 = 4
    norm_num
  · show max ((0 + 5 : ℚ) - 10) 0 = 0
    rw [max_eq_right (by norm_num)]

/-- Claim C8 (confirmed): whenever the current and target bookmarks are both
present in the (non-empty, hence already populated) timestamp map,
`duration_until_bookmark` returns target timestamp minus current timestamp,
for every alignment result — and the difference is not clamped, so it is
negative exactly when the target precedes the current bookmark.  Concretely:
a fresh tracker (current bookmark `_origin_` at 0.0) queried for a mark
aligned at 1.0 gets 1.0, and a tracker standing at a mark at 5 queried for a
mark at 3 gets -2. -/
theorem duration_until_bookmark_spec :
    (∀ (tr : NarrationTracker) (aligned : List (String × ℚ)) (target : String)
        (current_ts target_ts : ℚ),
      tr.bookmark_timestamps ≠ [] →
      alookup tr.current_bookmark tr.bookmark_timestamps = some current_ts →
      alookup target tr.bookmark_timestamps = some target_ts →
      tr.duration_until_bookmark aligned target = .ok (target_ts - current_ts))
    ∧ (NarrationTracker.create 0 5).duration_until_bookmark [("m", 1)] "m" = .ok 1
    ∧ ({ NarrationTracker.create 0 10 with
          current_bookmark := "five",
          bookmark_timestamps := [("_origin_", 0), ("five", 5), ("three", 3)] }
        ).duration_until_bookmark [] "three" = .ok (-2) := by
  refine ⟨?_, ?_, ?_⟩
  · intro tr aligned target current_ts target_ts hne hcur htgt
    unfold NarrationTracker.duration_until_bookmark
    rw [if_neg hne]
    simp only [hcur, htgt]
  · show Except.ok ((1 : ℚ) - 0) = .ok 1
    norm_num
  · show Except.ok ((3 : ℚ) - 5) = .ok (-2)
    norm_num

/-- Claim C8, witness input: a populated two-entry map, querying `m` from the
origin. -/
theorem duration_until_bookmark_spec_witness :
    ({ NarrationTracker.create 0 5 with
        bookmark_timestamps := [("_origin_", 0), ("m", 1)] }
      ).duration_until_bookmark [] "m" = .ok (1 - 0) :=
  duration_until_bookmark_spec.1
    { NarrationTracker.create 0 5 with
        bookmark_timestamps := [("_origin_", 0), ("m", 1)] }
    [] "m" 0 1 (by decide) (by decide) (by decide)

/-- Claim C9 (confirmed): with the populated timestamp map (non-empty, origin
entry at 0.0, current bookmark resolvable — the state the library maintains),
a target mark absent from the map makes `duration_until_bookmark` return the
`AlignmentError` whose message is `The bookmark \x60{target}\x60 does not
exist.` — for every alignment result, i.e. the failure arises at the point of
the query, not during alignment. -/
theorem duration_until_bookmark_unknown_target (tr : NarrationTracker)
    (aligned : List (String × ℚ)) (target : String) (current_ts : ℚ)
    (hne : tr.bookmark_timestamps ≠ [])
    (horigin : alookup "_origin_" tr.bookmark_timestamps = some 0)
    (hcur : alookup tr.current_bookmark tr.bookmark_timestamps = some current_ts)
    (htgt : alookup target tr.bookmark_timestamps = none) :
    tr.duration_until_bookmark aligned target = .error (.bookmarkNotFound target)
    ∧ trackerErrorMessage (.bookmarkNotFound target)
        = "The bookmark `" ++ target ++ "` does not exist." := by
  refine ⟨?_, rfl⟩
  unfold NarrationTracker.duration_until_bookmark
  rw [if_neg hne]
  simp only [hcur, htgt]

/-- Claim C9, witness input: map `_origin_:0, a:1`, unknown target `c`. -/
theorem duration_until_bookmark_unknown_target_witness :
    ({ NarrationTracker.create 0 5 with
        bookmark_timestamps := [("_origin_", 0), ("a", 1)] }
      ).duration_until_bookmark [] "c"
      = .error (.bookmarkNotFound "c") :=
  (duration_until_bookmark_unknown_target
    { NarrationTracker.create 0 5 with
        bookmark_timestamps := [("_origin_", 0), ("a", 1)] }
    [] "c" 0 (by decide) (by decide) (by decide) (by decide)).1

end ManimNarration
